import Mathlib

/-
  Verification of the game-session lifecycle of `ialauncher`
  (src/ialauncher/game.py) against its natural-language specification.

  The embedding is shallow:
  * the metadata document (the `[metadata]` section that `RawConfigParser`
    reads and writes) and on-disk directories are modelled as association
    lists from names to string contents (`KV`);
  * `Game.__init__`, `Game.write_metadata`, `Game.download_files`,
    `Game.extract_file` and `Game.start` are translated into pure Lean
    functions; the external collaborators (network fetch, URL percent
    decoding, zip decompression, the in-emulator session) are passed as
    function parameters;
  * Python truthiness of an optional string (`None`/`''` falsy) is
    `strTruthy`, of an optional list `listTruthy`;
  * raised exceptions are `Except.error`.
-/

/-! ## Key-value stores (metadata section, directories) -/

/-- A flat key-value store: used both for a config section
(key = option name, value = option value) and for a directory
(key = file name, value = file contents). -/
abbrev KV := List (String × String)

/-- Look a key up (first binding wins). -/
def KV.get (d : KV) (k : String) : Option String :=
  match d with
  | [] => none
  | (k1, v1) :: rest => if k = k1 then some v1 else KV.get rest k

/-- Remove every binding of a key. -/
def KV.remove (d : KV) (k : String) : KV :=
  match d with
  | [] => []
  | (k1, v1) :: rest =>
      if k1 = k then KV.remove rest k else (k1, v1) :: KV.remove rest k

/-- Bind a key to a value, replacing any previous binding. -/
def KV.set (d : KV) (k v : String) : KV := (k, v) :: KV.remove d k

theorem KV.get_remove_ne (d : KV) (k k' : String) (h : k' ≠ k) :
    KV.get (KV.remove d k) k' = KV.get d k' := by
  induction d with
  | nil => rfl
  | cons p rest ih =>
    obtain ⟨k1, v1⟩ := p
    by_cases h1 : k1 = k
    · subst h1
      simp [KV.remove, KV.get, h, ih]
    · by_cases h2 : k' = k1
      · subst h2
        simp [KV.remove, KV.get, h1]
      · simp [KV.remove, KV.get, h1, h2, ih]

theorem KV.get_remove_self (d : KV) (k : String) :
    KV.get (KV.remove d k) k = none := by
  induction d with
  | nil => rfl
  | cons p rest ih =>
    obtain ⟨k1, v1⟩ := p
    by_cases h1 : k1 = k
    · simp [KV.remove, h1, ih]
    · have : k ≠ k1 := fun hh => h1 hh.symm
      simp [KV.remove, KV.get, h1, this, ih]

theorem KV.get_set (d : KV) (k v k' : String) :
    KV.get (KV.set d k v) k' = if k' = k then some v else KV.get d k' := by
  by_cases h : k' = k
  · simp [KV.set, KV.get, h]
  · simp [KV.set, KV.get, h, KV.get_remove_ne d k k' h]

theorem KV.get_set_self (d : KV) (k v : String) :
    KV.get (KV.set d k v) k = some v := by
  simp [KV.get_set]

theorem KV.get_set_ne (d : KV) (k v k' : String) (h : k' ≠ k) :
    KV.get (KV.set d k v) k' = KV.get d k' := by
  simp [KV.get_set, h]

/-! ## Python string helpers: truthiness, `str.split()`, `'\n'.join` -/

/-- Python truthiness of an optional string: `None` and `''` are falsy. -/
def strTruthy : Option String → Bool
  | none => false
  | some s => s != ""

/-- Python truthiness of an optional list: `None` and `[]` are falsy. -/
def listTruthy : Option (List String) → Bool
  | none => false
  | some l => !l.isEmpty

/-- Worker for `pySplit`: scan the characters, accumulating the current
token in reverse; whitespace ends a token, empty tokens are dropped. -/
def pySplitGo : List Char → List Char → List (List Char)
  | [], acc => if acc.isEmpty then [] else [acc.reverse]
  | c :: cs, acc =>
      if c.isWhitespace then
        if acc.isEmpty then pySplitGo cs [] else acc.reverse :: pySplitGo cs []
      else pySplitGo cs (c :: acc)

/-- Python `str.split()` (no argument): split on runs of whitespace,
discarding empty tokens. -/
def pySplit (s : String) : List String :=
  (pySplitGo s.data []).map (fun cs => cs.asString)

/-- Python `'\n'.join(...)`. -/
def joinNL : List String → String
  | [] => ""
  | [u] => u
  | u :: us => u ++ "\n" ++ joinNL us

/-! ### Lemmas about `pySplit` and `joinNL` -/

theorem asString_data (s : String) : s.data.asString = s := by
  cases s
  rfl

theorem data_append (a b : String) : (a ++ b).data = a.data ++ b.data := by
  cases a
  cases b
  rfl

theorem eq_empty_iff_data (s : String) : s = "" ↔ s.data = [] := by
  constructor
  · intro h
    subst h
    rfl
  · intro h
    apply String.ext
    simpa using h

/-- Consuming a run of non-whitespace characters just extends the
accumulator. -/
theorem pySplitGo_token (tok : List Char)
    (hy : ∀ c ∈ tok, c.isWhitespace = false) :
    ∀ rest acc, pySplitGo (tok ++ rest) acc = pySplitGo rest (tok.reverse ++ acc) := by
  induction tok with
  | nil =>
    intro rest acc
    simp
  | cons c tok ih =>
    intro rest acc
    have hc : c.isWhitespace = false := hy c (by simp)
    have htok : ∀ x ∈ tok, x.isWhitespace = false := fun x hx => hy x (by simp [hx])
    simp only [List.cons_append, pySplitGo, hc, Bool.false_eq_true, if_false]
    show pySplitGo (tok ++ rest) (c :: acc) = pySplitGo rest ((c :: tok).reverse ++ acc)
    rw [ih htok rest (c :: acc)]
    simp

/-- A string made only of non-whitespace characters. -/
def noWS (u : String) : Bool := u.data.all (fun c => !c.isWhitespace)

/-- Splitting the newline-join of nonempty whitespace-free tokens gives
the tokens back (character-list level). -/
theorem pySplitGo_joinNL (us : List String)
    (h : ∀ u ∈ us, u ≠ "" ∧ noWS u = true) :
    pySplitGo (joinNL us).data [] = us.map String.data := by
  induction us with
  | nil => simp [joinNL, pySplitGo]
  | cons u us ih =>
    obtain ⟨hu1, hu2⟩ := h u (by simp)
    have hdat : u.data ≠ [] := by
      intro hh
      exact hu1 ((eq_empty_iff_data u).mpr hh)
    have hws : ∀ c ∈ u.data, c.isWhitespace = false := by
      intro c hc
      have := (List.all_eq_true.mp hu2) c hc
      simpa using this
    cases us with
    | nil =>
      have : joinNL [u] = u := rfl
      rw [this, show u.data = u.data ++ [] by simp, pySplitGo_token u.data hws [] []]
      simp [pySplitGo, hdat]
    | cons v us2 =>
      have hrest : ∀ x ∈ v :: us2, x ≠ "" ∧ noWS x = true := fun x hx =>
        h x (by simp [hx])
      have hj : joinNL (u :: v :: us2) = u ++ "\n" ++ joinNL (v :: us2) := rfl
      rw [hj, data_append, data_append]
      have hnl : ("\n" : String).data = ['\n'] := rfl
      rw [hnl, List.append_assoc, pySplitGo_token u.data hws _ []]
      have hwsnl : ('\n' : Char).isWhitespace = true := rfl
      simp only [List.cons_append, List.nil_append, pySplitGo, hwsnl, if_true]
      have hne : ¬((u.data.reverse ++ []).isEmpty = true) := by
        simp [List.isEmpty_iff, hdat]
      rw [if_neg hne]
      show (u.data.reverse ++ []).reverse :: pySplitGo (joinNL (v :: us2)).data [] =
        List.map String.data (u :: v :: us2)
      rw [ih hrest]
      simp

/-- `str.split()` of `'\n'.join(us)` recovers `us` when every token is
nonempty and whitespace-free (URL lists satisfy this by construction). -/
theorem pySplit_joinNL (us : List String)
    (h : ∀ u ∈ us, u ≠ "" ∧ noWS u = true) :
    pySplit (joinNL us) = us := by
  unfold pySplit
  rw [pySplitGo_joinNL us h, List.map_map]
  have : (fun cs => List.asString cs) ∘ String.data = id := by
    funext s
    simp [asString_data]
  rw [this, List.map_id]

/-- The newline-join of a nonempty list of nonempty tokens is nonempty. -/
theorem joinNL_ne_empty (us : List String) (h0 : us ≠ [])
    (h : ∀ u ∈ us, u ≠ "") : joinNL us ≠ "" := by
  cases us with
  | nil => exact absurd rfl h0
  | cons u us =>
    have hu : u ≠ "" := h u (by simp)
    have hdat : u.data ≠ [] := fun hh => hu ((eq_empty_iff_data u).mpr hh)
    cases us with
    | nil => exact hu
    | cons v us2 =>
      intro hh
      have : (joinNL (u :: v :: us2)).data = [] := (eq_empty_iff_data _).mp hh
      rw [show joinNL (u :: v :: us2) = u ++ "\n" ++ joinNL (v :: us2) from rfl,
        data_append, data_append] at this
      simp [List.append_eq_nil] at this

/-! ### RawConfigParser read-path normalization

`write_metadata` serializes the config through `RawConfigParser.write`
(newlines become indented continuation lines) and `Game.__init__` reads
it back through `RawConfigParser.read`, whose read path strips values:
the option line's value is `strip()`-ped, each continuation line is
`strip()`-ped, full-comment continuation lines are dropped, blank lines
stay as empty entries, and the joined value is `rstrip()`-ped
(`_join_multiline_values`). The composition write-then-read therefore
normalizes every stored value as `iniReadNorm` below. -/

/-- Python `str.strip()`: drop whitespace from both ends. -/
def pyStrip (s : String) : String :=
  (((s.data.dropWhile Char.isWhitespace).reverse.dropWhile
      Char.isWhitespace).reverse).asString

/-- Python `str.rstrip()`: drop whitespace from the right end. -/
def pyRstrip (s : String) : String :=
  ((s.data.reverse.dropWhile Char.isWhitespace).reverse).asString

/-- `v.split('\n')` at the character level (keeps empty pieces). -/
def splitNLChars : List Char → List Char → List (List Char)
  | [], acc => [acc.reverse]
  | c :: cs, acc =>
      if c = '\n' then acc.reverse :: splitNLChars cs []
      else splitNLChars cs (c :: acc)

/-- Python `v.split('\n')`. -/
def splitNL (s : String) : List String :=
  (splitNLChars s.data []).map (fun cs => cs.asString)

/-- A stripped line that RawConfigParser treats as a full-line comment
when it occurs as a continuation line. -/
def isCommentLine (t : String) : Bool :=
  match t.data with
  | [] => false
  | c :: _ => c == '#' || c == ';'

/-- What a value stored by `write_metadata` becomes when `Game.__init__`
reads the written file back: first value line stripped; continuation
lines stripped, comment lines dropped, blanks kept; newline-joined and
right-stripped.  (Checked against the CPython `configparser` write→read
behaviour on representative values.) -/
def iniReadNorm (v : String) : String :=
  match (splitNL v).map pyStrip with
  | [] => ""
  | l0 :: rest => pyRstrip (joinNL (l0 :: rest.filter (fun t => !(isCommentLine t))))

/-- Is an optional field value a fixpoint of the read normalization? -/
def optNormFix : Option String → Bool
  | none => true
  | some s => iniReadNorm s == s

/-! ### Fixpoints of the read normalization -/

theorem dropWhile_all_not (p : Char → Bool) (l : List Char)
    (h : ∀ c ∈ l, p c = false) : l.dropWhile p = l := by
  cases l with
  | nil => rfl
  | cons c cs => simp [List.dropWhile_cons, h c (by simp)]

theorem pyStrip_of_noWS (u : String) (h : noWS u = true) : pyStrip u = u := by
  have hall : ∀ c ∈ u.data, c.isWhitespace = false := by
    intro c hc
    have := (List.all_eq_true.mp h) c hc
    simpa using this
  unfold pyStrip
  rw [dropWhile_all_not _ _ hall,
    dropWhile_all_not _ _ (fun c hc => hall c (List.mem_reverse.mp hc)),
    List.reverse_reverse, asString_data]

theorem splitNLChars_newline (rest acc : List Char) :
    splitNLChars ('\n' :: rest) acc = acc.reverse :: splitNLChars rest [] := by
  simp [splitNLChars]

/-- Consuming newline-free characters extends the accumulator. -/
theorem splitNLChars_token (tok : List Char) (h : ∀ c ∈ tok, ¬c = '\n') :
    ∀ rest acc,
      splitNLChars (tok ++ rest) acc = splitNLChars rest (tok.reverse ++ acc) := by
  induction tok with
  | nil =>
    intro rest acc
    simp
  | cons c tok ih =>
    intro rest acc
    have hc : ¬c = '\n' := h c (by simp)
    have htok : ∀ x ∈ tok, ¬x = '\n' := fun x hx => h x (by simp [hx])
    simp only [List.cons_append, splitNLChars]
    rw [if_neg hc]
    show splitNLChars (tok ++ rest) (c :: acc) =
      splitNLChars rest ((c :: tok).reverse ++ acc)
    rw [ih htok rest (c :: acc)]
    simp

theorem splitNLChars_joinNL (us : List String) (h0 : us ≠ [])
    (h : ∀ u ∈ us, ∀ c ∈ u.data, ¬c = '\n') :
    splitNLChars (joinNL us).data [] = us.map String.data := by
  induction us with
  | nil => exact absurd rfl h0
  | cons u us ih =>
    have hu : ∀ c ∈ u.data, ¬c = '\n' := h u (by simp)
    cases us with
    | nil =>
      rw [show joinNL [u] = u from rfl,
        show u.data = u.data ++ [] by simp,
        splitNLChars_token u.data hu [] []]
      simp [splitNLChars]
    | cons v us2 =>
      have hrest : ∀ x ∈ v :: us2, ∀ c ∈ x.data, ¬c = '\n' := fun x hx =>
        h x (by simp [hx])
      rw [show joinNL (u :: v :: us2) = u ++ "\n" ++ joinNL (v :: us2) from rfl,
        data_append, data_append,
        show ("\n" : String).data = ['\n'] from rfl,
        List.append_assoc,
        splitNLChars_token u.data hu _ []]
      show splitNLChars ('\n' :: (joinNL (v :: us2)).data) (u.data.reverse ++ []) =
        List.map String.data (u :: v :: us2)
      rw [splitNLChars_newline, ih (by simp) hrest]
      simp

/-- `v.split('\n')` of `'\n'.join(us)` recovers `us` when no token
contains a newline. -/
theorem splitNL_joinNL (us : List String) (h0 : us ≠ [])
    (h : ∀ u ∈ us, ∀ c ∈ u.data, ¬c = '\n') :
    splitNL (joinNL us) = us := by
  unfold splitNL
  rw [splitNLChars_joinNL us h0 h, List.map_map]
  have : (fun cs => List.asString cs) ∘ String.data = id := by
    funext s
    simp [asString_data]
  rw [this, List.map_id]

/-- The last character of a join of nonempty whitespace-free tokens is
not whitespace. -/
theorem joinNL_reverse_data (us : List String) (h0 : us ≠ [])
    (h : ∀ u ∈ us, u ≠ "" ∧ noWS u = true) :
    ∃ c rest, (joinNL us).data.reverse = c :: rest ∧ c.isWhitespace = false := by
  induction us with
  | nil => exact absurd rfl h0
  | cons u us ih =>
    cases us with
    | nil =>
      obtain ⟨hu1, hu2⟩ := h u (by simp)
      have hdat : u.data ≠ [] := fun hh => hu1 ((eq_empty_iff_data u).mpr hh)
      rw [show joinNL [u] = u from rfl]
      cases hrev : u.data.reverse with
      | nil =>
        exact absurd (by simpa using hrev) hdat
      | cons c rest =>
        have hc : c ∈ u.data := by
          have hm : c ∈ u.data.reverse := by
            rw [hrev]
            simp
          exact List.mem_reverse.mp hm
        refine ⟨c, rest, rfl, ?_⟩
        have := (List.all_eq_true.mp hu2) c hc
        simpa using this
    | cons v us2 =>
      obtain ⟨c, rest, hcr, hcw⟩ := ih (by simp) (fun x hx => h x (by simp [hx]))
      refine ⟨c, rest ++ (u.data ++ ("\n" : String).data).reverse, ?_, hcw⟩
      rw [show joinNL (u :: v :: us2) = u ++ "\n" ++ joinNL (v :: us2) from rfl,
        data_append, data_append, List.reverse_append, hcr]
      simp

/-- `rstrip` is the identity on a join of nonempty whitespace-free
tokens. -/
theorem pyRstrip_joinNL (us : List String) (h0 : us ≠ [])
    (h : ∀ u ∈ us, u ≠ "" ∧ noWS u = true) :
    pyRstrip (joinNL us) = joinNL us := by
  obtain ⟨c, rest, hcr, hcw⟩ := joinNL_reverse_data us h0 h
  unfold pyRstrip
  rw [hcr, List.dropWhile_cons, if_neg (by simp [hcw]), ← hcr,
    List.reverse_reverse, asString_data]

theorem map_pyStrip_id (us : List String) (h : ∀ u ∈ us, noWS u = true) :
    us.map pyStrip = us := by
  induction us with
  | nil => rfl
  | cons u us ih =>
    rw [List.map_cons, pyStrip_of_noWS u (h u (by simp)),
      ih (fun x hx => h x (by simp [hx]))]

theorem filter_not_comment (us : List String)
    (h : ∀ u ∈ us, isCommentLine u = false) :
    us.filter (fun t => !(isCommentLine t)) = us := by
  induction us with
  | nil => rfl
  | cons u us ih =>
    rw [List.filter_cons]
    simp [h u (by simp), ih (fun x hx => h x (by simp [hx]))]

/-- Serialized URL lists — nonempty, whitespace-free, non-comment
tokens — are fixpoints of the read normalization. -/
theorem iniReadNorm_joinNL (us : List String) (h0 : us ≠ [])
    (h : ∀ u ∈ us, u ≠ "" ∧ noWS u = true ∧ isCommentLine u = false) :
    iniReadNorm (joinNL us) = joinNL us := by
  have hwf2 : ∀ u ∈ us, u ≠ "" ∧ noWS u = true := fun u hu =>
    ⟨(h u hu).1, (h u hu).2.1⟩
  have hnl : ∀ u ∈ us, ∀ c ∈ u.data, ¬c = '\n' := by
    intro u hu c hc heq
    subst heq
    have h2 := (List.all_eq_true.mp (h u hu).2.1) _ hc
    exact absurd h2 (by decide)
  unfold iniReadNorm
  rw [splitNL_joinNL us h0 hnl, map_pyStrip_id us (fun u hu => (h u hu).2.1)]
  cases us with
  | nil => exact absurd rfl h0
  | cons u us2 =>
    show pyRstrip (joinNL (u :: us2.filter (fun t => !(isCommentLine t)))) =
      joinNL (u :: us2)
    rw [filter_not_comment us2 (fun x hx => (h x (by simp [hx])).2.2)]
    exact pyRstrip_joinNL (u :: us2) h0 hwf2

/-! ## The Title Record (`Game`) -/

/-- The Title Record, mirroring the fields `Game.__init__` loads from the
`[metadata]` section of `metadata.ini`. `url` is `none` when the key is
absent; a present but empty `url` value stays unsplit in the source (the
string `''`), which behaves exactly like the empty list everywhere the
program looks at it, so it is encoded as `some []`. -/
structure Game where
  path : String
  title : Option String
  year : Option String
  emulator_start : Option String
  dosbox_conf : Option String
  url : Option (List String)
deriving DecidableEq, Repr

/-- The payload directory path (`self.gamedir`). -/
def Game.gamedirPath (g : Game) : String := g.path ++ "/dosbox_drive_c"

/-- `Game.__init__`: load a Title Record from the metadata document.
The `KV` entry holds the value as `write_metadata` stored it; reading it
back through `RawConfigParser` yields its read-normalized form, so every
`get` applies `iniReadNorm`. -/
def loadGame (path : String) (ini : KV) : Game :=
  { path := path
    title := (ini.get "title").map iniReadNorm
    year := (ini.get "year").map iniReadNorm
    emulator_start := (ini.get "emulator_start").map iniReadNorm
    dosbox_conf := (ini.get "dosbox_conf").map iniReadNorm
    url := match (ini.get "url").map iniReadNorm with
           | none => none
           | some s => if s = "" then some [] else some (pySplit s) }

/-- `Game.write_metadata`: write every set (truthy) field into the config
section, URLs newline-joined, and persist the resulting section. -/
def writeMetadata (g : Game) (cfg : KV) : KV :=
  let c1 := if strTruthy g.title then KV.set cfg "title" (g.title.getD "") else cfg
  let c2 := if strTruthy g.year then KV.set c1 "year" (g.year.getD "") else c1
  let c3 := if listTruthy g.url then KV.set c2 "url" (joinNL (g.url.getD [])) else c2
  let c4 := if strTruthy g.emulator_start then
              KV.set c3 "emulator_start" (g.emulator_start.getD "") else c3
  if strTruthy g.dosbox_conf then
    KV.set c4 "dosbox_conf" (g.dosbox_conf.getD "") else c4

theorem writeMetadata_get_title (g : Game) (cfg : KV) :
    KV.get (writeMetadata g cfg) "title" =
      if strTruthy g.title then some (g.title.getD "") else KV.get cfg "title" := by
  unfold writeMetadata
  by_cases h1 : strTruthy g.title <;>
  by_cases h2 : strTruthy g.year <;>
  by_cases h3 : listTruthy g.url <;>
  by_cases h4 : strTruthy g.emulator_start <;>
  by_cases h5 : strTruthy g.dosbox_conf <;>
  simp [h1, h2, h3, h4, h5, KV.get_set]

theorem writeMetadata_get_year (g : Game) (cfg : KV) :
    KV.get (writeMetadata g cfg) "year" =
      if strTruthy g.year then some (g.year.getD "") else KV.get cfg "year" := by
  unfold writeMetadata
  by_cases h1 : strTruthy g.title <;>
  by_cases h2 : strTruthy g.year <;>
  by_cases h3 : listTruthy g.url <;>
  by_cases h4 : strTruthy g.emulator_start <;>
  by_cases h5 : strTruthy g.dosbox_conf <;>
  simp [h1, h2, h3, h4, h5, KV.get_set]

theorem writeMetadata_get_url (g : Game) (cfg : KV) :
    KV.get (writeMetadata g cfg) "url" =
      if listTruthy g.url then some (joinNL (g.url.getD [])) else KV.get cfg "url" := by
  unfold writeMetadata
  by_cases h1 : strTruthy g.title <;>
  by_cases h2 : strTruthy g.year <;>
  by_cases h3 : listTruthy g.url <;>
  by_cases h4 : strTruthy g.emulator_start <;>
  by_cases h5 : strTruthy g.dosbox_conf <;>
  simp [h1, h2, h3, h4, h5, KV.get_set]

theorem writeMetadata_get_es (g : Game) (cfg : KV) :
    KV.get (writeMetadata g cfg) "emulator_start" =
      if strTruthy g.emulator_start then some (g.emulator_start.getD "")
      else KV.get cfg "emulator_start" := by
  unfold writeMetadata
  by_cases h1 : strTruthy g.title <;>
  by_cases h2 : strTruthy g.year <;>
  by_cases h3 : listTruthy g.url <;>
  by_cases h4 : strTruthy g.emulator_start <;>
  by_cases h5 : strTruthy g.dosbox_conf <;>
  simp [h1, h2, h3, h4, h5, KV.get_set]

theorem writeMetadata_get_conf (g : Game) (cfg : KV) :
    KV.get (writeMetadata g cfg) "dosbox_conf" =
      if strTruthy g.dosbox_conf then some (g.dosbox_conf.getD "")
      else KV.get cfg "dosbox_conf" := by
  unfold writeMetadata
  by_cases h1 : strTruthy g.title <;>
  by_cases h2 : strTruthy g.year <;>
  by_cases h3 : listTruthy g.url <;>
  by_cases h4 : strTruthy g.emulator_start <;>
  by_cases h5 : strTruthy g.dosbox_conf <;>
  simp [h1, h2, h3, h4, h5, KV.get_set]

theorem writeMetadata_get_other (g : Game) (cfg : KV) (k : String)
    (hk1 : k ≠ "title") (hk2 : k ≠ "year") (hk3 : k ≠ "url")
    (hk4 : k ≠ "emulator_start") (hk5 : k ≠ "dosbox_conf") :
    KV.get (writeMetadata g cfg) k = KV.get cfg k := by
  unfold writeMetadata
  by_cases h1 : strTruthy g.title <;>
  by_cases h2 : strTruthy g.year <;>
  by_cases h3 : listTruthy g.url <;>
  by_cases h4 : strTruthy g.emulator_start <;>
  by_cases h5 : strTruthy g.dosbox_conf <;>
  simp [h1, h2, h3, h4, h5, KV.get_set, hk1, hk2, hk3, hk4, hk5]

/-! ## The Content Store (`download_files`, `extract_file`) -/

/-- Host filesystem slice a title touches: the files cached in its
storage directory (`self.path`) and the payload directory
(`self.gamedir`), which is `none` while absent from disk. -/
structure FS where
  cache : KV
  gamedir : Option KV
deriving DecidableEq, Repr

/-- World state: the filesystem plus a log of the URLs fetched over the
network (`request.urlretrieve` calls). -/
structure World where
  fs : FS
  fetched : List String
deriving DecidableEq, Repr

/-- Python `str.endswith`, at the character level. -/
def pyEndsWith (s suffix : String) : Bool := List.isSuffixOf suffix.data s.data

/-- The classification test of `download_files` line 118, verbatim:
`filename.endswith('zip') or filename.endswith('ZIP') or
filename.endswith('play')`. -/
def isArchiveLike (filename : String) : Bool :=
  pyEndsWith filename "zip" || pyEndsWith filename "ZIP" || pyEndsWith filename "play"

/-- `Game.extract_file`: unpack the archive members into the payload
directory (`ZipFile.extractall`, which creates the directory when it has
members to place there), then delete `dosbox.conf` from the payload
directory if such a file now exists. -/
def extractFile (members : List (String × String)) (gamedir : Option KV) : Option KV :=
  let gd := if members.isEmpty then gamedir
            else some (members.foldl (fun d m => KV.set d m.1 m.2) (gamedir.getD []))
  match gd with
  | none => none
  | some d => some (KV.remove d "dosbox.conf")

/-- One classification-and-routing step of the `download_files` loop for
an already-cached file (lines 118-123): archive-like names are
decompressed via `extract_file`; anything else is copied verbatim into
the payload directory, which is created first if needed
(`os.makedirs(..., exist_ok=True)`). `unzip` abstracts `ZipFile`. -/
def processFile (unzip : String → List (String × String))
    (filename content : String) (gamedir : Option KV) : Option KV :=
  if isArchiveLike filename then extractFile (unzip content) gamedir
  else some (KV.set (gamedir.getD []) filename content)

/-- `u.split('/')[-1]`. -/
def lastSegment (u : String) : String := (u.splitOn "/").getLastD ""

/-- One iteration of the `download_files` loop: derive the local file
name from the URL, fetch it if not already cached, then route it with
`processFile`. `fetch` abstracts `request.urlretrieve`, `unquote`
abstracts `urllib.parse.unquote`. -/
def processUrl (fetch : String → String) (unquote : String → String)
    (unzip : String → List (String × String)) (w : World) (u : String) : World :=
  let filename := unquote (lastSegment u)
  let (cache, fetched) :=
    match w.fs.cache.get filename with
    | some _ => (w.fs.cache, w.fetched)
    | none => (KV.set w.fs.cache filename (fetch u), w.fetched ++ [u])
  let content := (cache.get filename).getD ""
  { fs := { cache := cache, gamedir := processFile unzip filename content w.fs.gamedir }
    fetched := fetched }

/-- `Game.download_files`: iterate over `self.url`. When the metadata had
no `url` key the field is `None` and the `for` loop raises a
`TypeError`. -/
def downloadFiles (fetch : String → String) (unquote : String → String)
    (unzip : String → List (String × String)) (g : Game) (w : World) :
    Except String World :=
  match g.url with
  | none => .error "TypeError: NoneType object is not iterable"
  | some us => .ok (us.foldl (processUrl fetch unquote unzip) w)

/-- The payload-presence guard of `Game.start` lines 59-60 (the spec's
`ensure_payload` contract): download only when the payload directory is
absent. -/
def ensurePayload (fetch : String → String) (unquote : String → String)
    (unzip : String → List (String × String)) (g : Game) (w : World) :
    Except String World :=
  if w.fs.gamedir.isSome then .ok w else downloadFiles fetch unquote unzip g w

/-! ## The Session Controller (`Game.start`) -/

/-- Lines 67-70: if `dosbox_conf` is set, write it verbatim to
`dosbox.conf` inside the payload directory. -/
def withConf (g : Game) (gd : KV) : KV :=
  if strTruthy g.dosbox_conf then KV.set gd "dosbox.conf" (g.dosbox_conf.getD "")
  else gd

/-- Lines 64-70: the emulator flag list before the autorun decision:
`['-fullscreen']`, extended with the config-loading flags when
`dosbox_conf` is set. -/
def confArgs (g : Game) : List String :=
  "-fullscreen" :: (if strTruthy g.dosbox_conf then ["-userconf", "-conf", "dosbox.conf"]
                    else [])

/-- The observable outcome of a successful `Game.start` call: the
Title Record (`self`) after the call, the in-memory config section, the
persisted `metadata.ini` section, the world, the working directory of
the spawned emulator, its run target, and the full argument list passed
after the emulator binary (`[dosbox_run] + dosbox_args`). -/
structure StartOutcome where
  game : Game
  cfg : KV
  ini : KV
  world : World
  cwd : String
  runTarget : String
  args : List String
deriving DecidableEq, Repr

/-- Lines 103-109: after an interactive session exits, read the command
script back from the payload directory `gd3`; its contents (even empty
ones) replace `self.emulator_start`, and only non-empty contents trigger
`write_metadata`. Returns the updated record, config section and
persisted section. -/
def captureStep (g : Game) (cfg ini : KV) (gd3 : KV) : Game × KV × KV :=
  match KV.get gd3 "dosbox.bat" with
  | none => (g, cfg, ini)
  | some content =>
    let g2 := { g with emulator_start := some content }
    if content != "" then
      let cfg2 := writeMetadata g2 cfg
      (g2, cfg2, cfg2)
    else (g2, cfg, ini)

/-- `Game.start` lines 61-109, once the payload directory `gd0` exists.
`session : KV → KV` abstracts what the emulator process (and the user
inside it) does to the payload directory while it runs; in autorun mode
the controller returns without waiting, so the session effect is not
observed. -/
def startPrepared (g : Game) (cfg ini : KV) (w1 : World) (gd0 : KV)
    (autorun : Bool) (session : KV → KV) : StartOutcome :=
  let cwd := g.gamedirPath
  let gd1 := withConf g gd0
  let args1 := confArgs g
  let step :=
    if strTruthy g.emulator_start then
      let es := g.emulator_start.getD ""
      if autorun then
        if (KV.get gd1 es).isSome then (gd1, es, autorun)
        else (KV.set gd1 "dosbox.bat" ("@echo off\ncls\n" ++ es), "dosbox.bat", autorun)
      else (KV.set gd1 "dosbox.bat" es, ".", autorun)
    else
      ((if (KV.get gd1 "dosbox.bat").isSome then gd1 else KV.set gd1 "dosbox.bat" "\n"),
       ".", false)
  let gd2 := step.1
  let run1 := step.2.1
  let autorun1 := step.2.2
  let args2 := if autorun1 then args1 ++ ["-exit"] else args1
  let run2 := if autorun1 then run1 else "."
  if autorun1 then
    { game := g, cfg := cfg, ini := ini
      world := { w1 with fs := { w1.fs with gamedir := some gd2 } }
      cwd := cwd, runTarget := run2, args := run2 :: args2 }
  else
    let gd3 := session gd2
    let cap := captureStep g cfg ini gd3
    { game := cap.1, cfg := cap.2.1, ini := cap.2.2
      world := { w1 with fs := { w1.fs with gamedir := some gd3 } }
      cwd := cwd, runTarget := run2, args := run2 :: args2 }

/-- `Game.start`: ensure the payload exists (lines 59-60), move into the
payload directory (line 61; raises when it still does not exist), then
run the prepared session. -/
def start (fetch : String → String) (unquote : String → String)
    (unzip : String → List (String × String)) (g : Game) (cfg ini : KV)
    (w : World) (autorun : Bool) (session : KV → KV) :
    Except String StartOutcome :=
  match ensurePayload fetch unquote unzip g w with
  | .error e => .error e
  | .ok w1 =>
    match w1.fs.gamedir with
    | none => .error "FileNotFoundError: No such file or directory: dosbox_drive_c"
    | some gd0 => .ok (startPrepared g cfg ini w1 gd0 autorun session)

/-! ### Projections of a `start` result -/

def resGame : Except String StartOutcome → Option Game
  | .ok r => some r.game
  | .error _ => none

def resCfg : Except String StartOutcome → Option KV
  | .ok r => some r.cfg
  | .error _ => none

def resIni : Except String StartOutcome → Option KV
  | .ok r => some r.ini
  | .error _ => none

def resWorld : Except String StartOutcome → Option World
  | .ok r => some r.world
  | .error _ => none

def resCwd : Except String StartOutcome → Option String
  | .ok r => some r.cwd
  | .error _ => none

def resRun : Except String StartOutcome → Option String
  | .ok r => some r.runTarget
  | .error _ => none

def resArgs : Except String StartOutcome → Option (List String)
  | .ok r => some r.args
  | .error _ => none

/-! ## Concrete fixtures used by witnesses and counterexamples -/

def fetch0 : String → String := fun _ => "ZIPDATA"

def unq0 : String → String := fun s => s

def unzip0 : String → List (String × String) := fun _ => [("A", "m")]

/-- A world whose payload directory exists (and is empty). -/
def w0 : World := { fs := { cache := [], gamedir := some [] }, fetched := [] }

/-- A world with no payload directory on disk. -/
def wAbsent : World := { fs := { cache := [], gamedir := none }, fetched := [] }

/-- A title whose boot command is `FOO.EXE`. -/
def gFoo : Game :=
  { path := "p", title := some "T", year := none,
    emulator_start := some "FOO.EXE", dosbox_conf := none, url := none }

/-- A title with no boot command set. -/
def gNone : Game :=
  { path := "p", title := none, year := none,
    emulator_start := none, dosbox_conf := none, url := none }

/-! ## C2: save/load round trip -/

/-- A record whose boot command carries a trailing newline — exactly
what interactive capture persists after a session that appended
`FOO.EXE\nBAR.EXE\n` to the command script. -/
def gBar : Game :=
  { path := "p", title := some "T", year := none,
    emulator_start := some "FOO.EXE\nBAR.EXE\n", dosbox_conf := none, url := none }

/-- C2 counterexample: the round trip is not the identity for every
Title Record. Saving `boot_command = "FOO.EXE\nBAR.EXE\n"` and
reloading yields `"FOO.EXE\nBAR.EXE"`: `RawConfigParser`'s read path
right-strips multiline values (`_join_multiline_values`), so the
trailing newline — which the program itself persists via interactive
capture — is lost. -/
theorem claim_C2_cex :
    (loadGame "p" (writeMetadata gBar [])).emulator_start =
      some "FOO.EXE\nBAR.EXE" ∧
    some "FOO.EXE\nBAR.EXE" ≠ gBar.emulator_start := by
  refine ⟨by decide, by decide⟩

/-- C2 as amended: the save/load round trip restores `title`, `year`,
`boot_command` (`emulator_start`), `emulator_config` (`dosbox_conf`)
and `source_urls` (`url`, order preserved via newline-join and
re-split) exactly for records whose set fields are non-empty fixpoints
of the configparser read normalization — every value line stripped of
surrounding whitespace, no trailing whitespace, no comment-prefixed
continuation line — and whose URLs are nonempty, whitespace-free and
not comment-prefixed; values outside that normal form (for example a
boot command with a trailing newline) reload in normalized form
instead. -/
theorem claim_C2_roundtrip (p : String) (g : Game)
    (ht : g.title ≠ some "") (hy : g.year ≠ some "")
    (he : g.emulator_start ≠ some "") (hd : g.dosbox_conf ≠ some "")
    (htn : optNormFix g.title = true) (hyn : optNormFix g.year = true)
    (hen : optNormFix g.emulator_start = true)
    (hdn : optNormFix g.dosbox_conf = true)
    (hu : g.url = none ∨
      ∃ us, g.url = some us ∧ us ≠ [] ∧
        ∀ u ∈ us, u ≠ "" ∧ noWS u = true ∧ isCommentLine u = false) :
    (loadGame p (writeMetadata g [])).title = g.title ∧
    (loadGame p (writeMetadata g [])).year = g.year ∧
    (loadGame p (writeMetadata g [])).emulator_start = g.emulator_start ∧
    (loadGame p (writeMetadata g [])).dosbox_conf = g.dosbox_conf ∧
    (loadGame p (writeMetadata g [])).url = g.url := by
  refine ⟨?_, ?_, ?_, ?_, ?_⟩
  · show ((writeMetadata g []).get "title").map iniReadNorm = g.title
    rw [writeMetadata_get_title]
    cases htt : g.title with
    | none => simp [strTruthy, KV.get]
    | some s =>
      have hs : s ≠ "" := by
        intro hh
        subst hh
        exact ht htt
      have hn : iniReadNorm s = s := by
        have h2 := htn
        rw [htt] at h2
        simpa [optNormFix] using h2
      simp [strTruthy, hs, hn]
  · show ((writeMetadata g []).get "year").map iniReadNorm = g.year
    rw [writeMetadata_get_year]
    cases htt : g.year with
    | none => simp [strTruthy, KV.get]
    | some s =>
      have hs : s ≠ "" := by
        intro hh
        subst hh
        exact hy htt
      have hn : iniReadNorm s = s := by
        have h2 := hyn
        rw [htt] at h2
        simpa [optNormFix] using h2
      simp [strTruthy, hs, hn]
  · show ((writeMetadata g []).get "emulator_start").map iniReadNorm =
      g.emulator_start
    rw [writeMetadata_get_es]
    cases htt : g.emulator_start with
    | none => simp [strTruthy, KV.get]
    | some s =>
      have hs : s ≠ "" := by
        intro hh
        subst hh
        exact he htt
      have hn : iniReadNorm s = s := by
        have h2 := hen
        rw [htt] at h2
        simpa [optNormFix] using h2
      simp [strTruthy, hs, hn]
  · show ((writeMetadata g []).get "dosbox_conf").map iniReadNorm = g.dosbox_conf
    rw [writeMetadata_get_conf]
    cases htt : g.dosbox_conf with
    | none => simp [strTruthy, KV.get]
    | some s =>
      have hs : s ≠ "" := by
        intro hh
        subst hh
        exact hd htt
      have hn : iniReadNorm s = s := by
        have h2 := hdn
        rw [htt] at h2
        simpa [optNormFix] using h2
      simp [strTruthy, hs, hn]
  · show (loadGame p (writeMetadata g [])).url = g.url
    rcases hu with hnone | ⟨us, hus, hne, hwf⟩
    · simp [loadGame, writeMetadata_get_url, hnone, listTruthy, KV.get]
    · have hwf2 : ∀ u ∈ us, u ≠ "" ∧ noWS u = true := fun u hu2 =>
        ⟨(hwf u hu2).1, (hwf u hu2).2.1⟩
      have hjoin : joinNL us ≠ "" :=
        joinNL_ne_empty us hne (fun u hu2 => (hwf u hu2).1)
      have hnorm : iniReadNorm (joinNL us) = joinNL us :=
        iniReadNorm_joinNL us hne hwf
      simp only [loadGame, writeMetadata_get_url, hus, listTruthy,
        Option.getD_some, List.isEmpty_iff, hne]
      simp [hne, hnorm, hjoin, pySplit_joinNL us hwf2]

/-- A fully-populated record (all values in read-normal form) for
exercising the round trip. -/
def gFull : Game :=
  { path := "p", title := some "T", year := some "1990",
    emulator_start := some "GO.EXE", dosbox_conf := some "[cpu]\ncycles=max",
    url := some ["http://x/a.zip", "http://x/b.zip"] }

theorem claim_C2_witness :
    (loadGame "p" (writeMetadata gFull [])).title = gFull.title ∧
    (loadGame "p" (writeMetadata gFull [])).year = gFull.year ∧
    (loadGame "p" (writeMetadata gFull [])).emulator_start = gFull.emulator_start ∧
    (loadGame "p" (writeMetadata gFull [])).dosbox_conf = gFull.dosbox_conf ∧
    (loadGame "p" (writeMetadata gFull [])).url = gFull.url :=
  claim_C2_roundtrip "p" gFull (by decide) (by decide) (by decide) (by decide)
    (by decide) (by decide) (by decide) (by decide)
    (Or.inr ⟨["http://x/a.zip", "http://x/b.zip"], rfl, by decide, by decide⟩)

/-! ## C8: save writes only set fields and preserves foreign keys -/

/-- C8: `write_metadata` writes into the backing key-value document only
the Title Record fields that are currently set (truthy); an unset field
leaves its key untouched, and every key other than `title`, `year`,
`url`, `emulator_start`, `dosbox_conf` is preserved unchanged. -/
theorem claim_C8_frame (g : Game) (cfg : KV) (k : String) :
    ((k ≠ "title" ∧ k ≠ "year" ∧ k ≠ "url" ∧ k ≠ "emulator_start" ∧
        k ≠ "dosbox_conf") →
      KV.get (writeMetadata g cfg) k = KV.get cfg k) ∧
    (strTruthy g.title = false →
      KV.get (writeMetadata g cfg) "title" = KV.get cfg "title") ∧
    (strTruthy g.year = false →
      KV.get (writeMetadata g cfg) "year" = KV.get cfg "year") ∧
    (listTruthy g.url = false →
      KV.get (writeMetadata g cfg) "url" = KV.get cfg "url") ∧
    (strTruthy g.emulator_start = false →
      KV.get (writeMetadata g cfg) "emulator_start" = KV.get cfg "emulator_start") ∧
    (strTruthy g.dosbox_conf = false →
      KV.get (writeMetadata g cfg) "dosbox_conf" = KV.get cfg "dosbox_conf") := by
  refine ⟨?_, ?_, ?_, ?_, ?_, ?_⟩
  · intro ⟨h1, h2, h3, h4, h5⟩
    exact writeMetadata_get_other g cfg k h1 h2 h3 h4 h5
  · intro h
    rw [writeMetadata_get_title, h]
    simp
  · intro h
    rw [writeMetadata_get_year, h]
    simp
  · intro h
    rw [writeMetadata_get_url, h]
    simp
  · intro h
    rw [writeMetadata_get_es, h]
    simp
  · intro h
    rw [writeMetadata_get_conf, h]
    simp

theorem claim_C8_witness :
    KV.get (writeMetadata gFoo [("comment", "keep me"), ("year", "1988")]) "comment" =
      KV.get [("comment", "keep me"), ("year", "1988")] "comment" ∧
    KV.get (writeMetadata gFoo [("comment", "keep me"), ("year", "1988")]) "year" =
      KV.get [("comment", "keep me"), ("year", "1988")] "year" :=
  ⟨(claim_C8_frame gFoo [("comment", "keep me"), ("year", "1988")] "comment").1
      (by refine ⟨?_, ?_, ?_, ?_, ?_⟩ <;> decide),
   (claim_C8_frame gFoo [("comment", "keep me"), ("year", "1988")] "year").2.2.1
      (by decide)⟩

/-! ## C5: payload acquisition is idempotent -/

/-- C5: when the payload directory already exists on disk,
`ensure_payload` (the guard of `start` lines 59-60 around
`download_files`) returns the world unchanged: no network fetch is
logged and no file changes. -/
theorem claim_C5_idempotent (fetch unquote : String → String)
    (unzip : String → List (String × String)) (g : Game) (w : World)
    (h : w.fs.gamedir.isSome = true) :
    ensurePayload fetch unquote unzip g w = .ok w := by
  simp [ensurePayload, h]

theorem claim_C5_witness :
    ensurePayload fetch0 unq0 unzip0 gFull w0 = .ok w0 :=
  claim_C5_idempotent fetch0 unq0 unzip0 gFull w0 (by decide)

/-! ## C10: missing `url` key raises on first run -/

/-- C10: a title whose metadata document has no `url` key loads with
`url = None`; starting it while the payload directory is absent raises
the `TypeError` from iterating `None` (no payload directory is created,
no fetch error is reported). -/
theorem claim_C10_missing_url (fetch unquote : String → String)
    (unzip : String → List (String × String)) (p : String) (ini0 cfg ini : KV)
    (w : World) (autorun : Bool) (session : KV → KV)
    (hurl : KV.get ini0 "url" = none) (hgd : w.fs.gamedir = none) :
    start fetch unquote unzip (loadGame p ini0) cfg ini w autorun session =
      .error "TypeError: NoneType object is not iterable" := by
  have hu : (loadGame p ini0).url = none := by
    simp [loadGame, hurl]
  rw [start, ensurePayload, hgd]
  simp [downloadFiles, hu]

theorem claim_C10_witness :
    start fetch0 unq0 unzip0 (loadGame "p" [("title", "X")]) [] [] wAbsent true
        (fun d => d) =
      .error "TypeError: NoneType object is not iterable" :=
  claim_C10_missing_url fetch0 unq0 unzip0 "p" [("title", "X")] [] [] wAbsent true
    (fun d => d) (by decide) (by decide)

/-! ## C3: fetched-file classification -/

/-- Does the name end in `.zip` up to the case of the letters?  Checked
on the reversed character list: last characters `p`/`P`, `i`/`I`,
`z`/`Z`, then a dot. -/
def zipSuffixCaseless : List Char → Bool
  | p :: i :: z :: '.' :: _ =>
      (p == 'p' || p == 'P') && (i == 'i' || i == 'I') && (z == 'z' || z == 'Z')
  | _ => false

/-- Modelled from the spec's words (§4.1), for comparison with the
code's classifier `isArchiveLike`: suffix `.zip` compared
case-insensitively, or no extension (no dot in the name) but suffix
`play`. -/
def specArchiveLike (f : String) : Bool :=
  zipSuffixCaseless f.data.reverse || (!(f.data.contains '.') && pyEndsWith f "play")

/-- C3 counterexample: `GAME.Zip` has the suffix `.zip` up to case, so
the claim routes it to decompression, but the code's test
(`endswith('zip') or endswith('ZIP') or endswith('play')`) is
case-sensitive: the file is copied verbatim into the payload directory
instead of decompressed. -/
theorem claim_C3_cex :
    specArchiveLike "GAME.Zip" = true ∧
    isArchiveLike "GAME.Zip" = false ∧
    processFile unzip0 "GAME.Zip" "c" (some []) = some (KV.set [] "GAME.Zip" "c") ∧
    processFile unzip0 "GAME.Zip" "c" (some []) ≠ extractFile (unzip0 "c") (some []) := by
  refine ⟨by decide, by decide, by decide, by decide⟩

/-- C3 as amended: a fetched file is routed to decompression exactly
when its name ends with the literal suffix `zip`, `ZIP` or `play`
(case-sensitively, no dot required); decompression places the archive
members in the payload directory and then deletes any `dosbox.conf`
present there; every other file is copied verbatim into the payload
directory, which is created first if needed. -/
theorem claim_C3_amended (unzip : String → List (String × String))
    (filename content : String) (gd : Option KV) :
    (isArchiveLike filename =
      (pyEndsWith filename "zip" || pyEndsWith filename "ZIP" ||
        pyEndsWith filename "play")) ∧
    (isArchiveLike filename = true →
      processFile unzip filename content gd = extractFile (unzip content) gd) ∧
    (isArchiveLike filename = false →
      processFile unzip filename content gd =
        some (KV.set (gd.getD []) filename content)) ∧
    (∀ d, extractFile (unzip content) gd = some d →
      KV.get d "dosbox.conf" = none) := by
  refine ⟨rfl, ?_, ?_, ?_⟩
  · intro h
    simp [processFile, h]
  · intro h
    simp [processFile, h]
  · intro d hd
    unfold extractFile at hd
    by_cases hm : (unzip content).isEmpty
    · rw [if_pos hm] at hd
      cases hgd2 : gd with
      | none =>
        rw [hgd2] at hd
        simp at hd
      | some x =>
        rw [hgd2] at hd
        simp at hd
        rw [← hd]
        exact KV.get_remove_self x _
    · rw [if_neg hm] at hd
      simp at hd
      rw [← hd]
      exact KV.get_remove_self _ _

theorem claim_C3_witness :
    processFile unzip0 "GAME.ZIP" "c" (some []) = extractFile (unzip0 "c") (some []) ∧
    processFile unzip0 "DATA.EXE" "c" none = some (KV.set [] "DATA.EXE" "c") ∧
    KV.get (KV.remove (KV.set [] "A" "m") "dosbox.conf") "dosbox.conf" = none :=
  ⟨(claim_C3_amended unzip0 "GAME.ZIP" "c" (some [])).2.1 (by decide),
   (claim_C3_amended unzip0 "DATA.EXE" "c" none).2.2.1 (by decide),
   (claim_C3_amended unzip0 "GAME.ZIP" "c" none).2.2.2
     (KV.remove (KV.set [] "A" "m") "dosbox.conf") (by decide)⟩

/-! ## C4: autorun forced off when no boot command -/

/-- C4: for a title with no `boot_command` set (`emulator_start` falsy),
`start` with `autorun=True` behaves identically to `start` with
`autorun=False` — autorun is silently forced off — and the `-exit` flag
never appears in the emulator arguments for such a title. -/
theorem claim_C4_autorun_forced (fetch unquote : String → String)
    (unzip : String → List (String × String)) (g : Game) (cfg ini : KV)
    (w : World) (session : KV → KV)
    (hes : strTruthy g.emulator_start = false) :
    start fetch unquote unzip g cfg ini w true session =
      start fetch unquote unzip g cfg ini w false session ∧
    ∀ (a : Bool) (r : StartOutcome),
      start fetch unquote unzip g cfg ini w a session = .ok r → "-exit" ∉ r.args := by
  have hprep : ∀ (w1 : World) (gd0 : KV) (a : Bool),
      startPrepared g cfg ini w1 gd0 a session =
        startPrepared g cfg ini w1 gd0 false session := by
    intro w1 gd0 a
    simp [startPrepared, hes]
  have hargs : ∀ (w1 : World) (gd0 : KV) (a : Bool),
      (startPrepared g cfg ini w1 gd0 a session).args = "." :: confArgs g := by
    intro w1 gd0 a
    simp [startPrepared, hes]
  constructor
  · cases h1 : ensurePayload fetch unquote unzip g w with
    | error e => simp [start, h1]
    | ok w1 =>
      cases h2 : w1.fs.gamedir with
      | none => simp [start, h1, h2]
      | some gd0 => simp [start, h1, h2, hprep w1 gd0 true]
  · intro a r hr
    cases h1 : ensurePayload fetch unquote unzip g w with
    | error e => simp [start, h1] at hr
    | ok w1 =>
      cases h2 : w1.fs.gamedir with
      | none => simp [start, h1, h2] at hr
      | some gd0 =>
        simp [start, h1, h2] at hr
        rw [← hr, hargs w1 gd0 a]
        unfold confArgs
        by_cases hc : strTruthy g.dosbox_conf
        · rw [if_pos hc]
          decide
        · rw [if_neg hc]
          decide

theorem claim_C4_witness :
    start fetch0 unq0 unzip0 gNone [] [] w0 true (fun d => d) =
      start fetch0 unq0 unzip0 gNone [] [] w0 false (fun d => d) ∧
    ∀ (a : Bool) (r : StartOutcome),
      start fetch0 unq0 unzip0 gNone [] [] w0 a (fun d => d) = .ok r →
        "-exit" ∉ r.args :=
  claim_C4_autorun_forced fetch0 unq0 unzip0 gNone [] [] w0 (fun d => d) (by decide)

/-! ## C6: emulator invocation shape -/

theorem startPrepared_cwd (g : Game) (cfg ini : KV) (w1 : World) (gd0 : KV)
    (a : Bool) (session : KV → KV) :
    (startPrepared g cfg ini w1 gd0 a session).cwd = g.gamedirPath := by
  by_cases hes : strTruthy g.emulator_start <;>
  cases a <;>
  by_cases hfile : (KV.get (withConf g gd0) (g.emulator_start.getD "")).isSome <;>
  simp [startPrepared, hes, hfile]

theorem startPrepared_args_shape (g : Game) (cfg ini : KV) (w1 : World) (gd0 : KV)
    (a : Bool) (session : KV → KV) :
    (startPrepared g cfg ini w1 gd0 a session).args =
      (startPrepared g cfg ini w1 gd0 a session).runTarget :: "-fullscreen" ::
        ((if strTruthy g.dosbox_conf then ["-userconf", "-conf", "dosbox.conf"]
          else []) ++
         (if a && strTruthy g.emulator_start then ["-exit"] else [])) := by
  by_cases hes : strTruthy g.emulator_start <;>
  cases a <;>
  by_cases hfile : (KV.get (withConf g gd0) (g.emulator_start.getD "")).isSome <;>
  simp [startPrepared, confArgs, hes, hfile]

/-- C6: every launch passes the emulator the ordered argument list
`run_target, "-fullscreen"`, then — exactly when `emulator_config`
(`dosbox_conf`) is set — `"-userconf", "-conf", "dosbox.conf"`, then —
exactly when the final autorun decision (requested autorun AND a set
boot command) holds — `"-exit"`; the working directory is the payload
directory. -/
theorem claim_C6_invocation (fetch unquote : String → String)
    (unzip : String → List (String × String)) (g : Game) (cfg ini : KV)
    (w : World) (gd : KV) (autorun : Bool) (session : KV → KV)
    (hgd : w.fs.gamedir = some gd) :
    ∃ run,
      resRun (start fetch unquote unzip g cfg ini w autorun session) = some run ∧
      resArgs (start fetch unquote unzip g cfg ini w autorun session) =
        some (run :: "-fullscreen" ::
          ((if strTruthy g.dosbox_conf then ["-userconf", "-conf", "dosbox.conf"]
            else []) ++
           (if autorun && strTruthy g.emulator_start then ["-exit"] else []))) ∧
      resCwd (start fetch unquote unzip g cfg ini w autorun session) =
        some g.gamedirPath := by
  have hok : ensurePayload fetch unquote unzip g w = .ok w := by
    simp [ensurePayload, hgd]
  have hstart : start fetch unquote unzip g cfg ini w autorun session =
      .ok (startPrepared g cfg ini w gd autorun session) := by
    simp [start, hok, hgd]
  refine ⟨(startPrepared g cfg ini w gd autorun session).runTarget, ?_, ?_, ?_⟩
  · rw [hstart]
    rfl
  · rw [hstart]
    simp only [resArgs]
    rw [startPrepared_args_shape]
  · rw [hstart]
    simp only [resCwd]
    rw [startPrepared_cwd]

theorem claim_C6_witness :
    ∃ run,
      resRun (start fetch0 unq0 unzip0 gFull [] [] w0 true (fun d => d)) = some run ∧
      resArgs (start fetch0 unq0 unzip0 gFull [] [] w0 true (fun d => d)) =
        some (run :: "-fullscreen" ::
          ((if strTruthy gFull.dosbox_conf then ["-userconf", "-conf", "dosbox.conf"]
            else []) ++
           (if true && strTruthy gFull.emulator_start then ["-exit"] else []))) ∧
      resCwd (start fetch0 unq0 unzip0 gFull [] [] w0 true (fun d => d)) =
        some gFull.gamedirPath :=
  claim_C6_invocation fetch0 unq0 unzip0 gFull [] [] w0 [] true (fun d => d) rfl

/-! ## C7: autorun executable shortcut -/

/-- Replace the payload directory of a world. -/
def setGamedir (w : World) (gd : KV) : World :=
  { w with fs := { w.fs with gamedir := some gd } }

/-- When the payload directory exists, `start` reduces to
`startPrepared` on it. -/
theorem start_of_gamedir (fetch unquote : String → String)
    (unzip : String → List (String × String)) (g : Game) (cfg ini : KV)
    (w : World) (gd : KV) (autorun : Bool) (session : KV → KV)
    (hgd : w.fs.gamedir = some gd) :
    start fetch unquote unzip g cfg ini w autorun session =
      .ok (startPrepared g cfg ini w gd autorun session) := by
  have hok : ensurePayload fetch unquote unzip g w = .ok w := by
    simp [ensurePayload, hgd]
  simp [start, hok, hgd]

/-- C7: with `autorun` requested and a set boot command, if the boot
command names a file that exists in the payload directory (after the
config write), the run target is that file and the command script is
neither generated nor overwritten (the payload directory is left exactly
as the config step produced it); otherwise the command script is written
with the echo-suppression preamble followed by the boot command, and the
run target is the script. -/
theorem claim_C7_shortcut (fetch unquote : String → String)
    (unzip : String → List (String × String)) (g : Game) (cfg ini : KV)
    (w : World) (gd : KV) (session : KV → KV) (s : String)
    (hes : g.emulator_start = some s) (hs : s ≠ "")
    (hgd : w.fs.gamedir = some gd) :
    ((KV.get (withConf g gd) s).isSome = true →
      resRun (start fetch unquote unzip g cfg ini w true session) = some s ∧
      resWorld (start fetch unquote unzip g cfg ini w true session) =
        some (setGamedir w (withConf g gd))) ∧
    ((KV.get (withConf g gd) s).isSome = false →
      resRun (start fetch unquote unzip g cfg ini w true session) =
        some "dosbox.bat" ∧
      resWorld (start fetch unquote unzip g cfg ini w true session) =
        some (setGamedir w
          (KV.set (withConf g gd) "dosbox.bat" ("@echo off\ncls\n" ++ s)))) := by
  have hstr : strTruthy (some s) = true := by
    simp [strTruthy, hs]
  rw [start_of_gamedir fetch unquote unzip g cfg ini w gd true session hgd]
  constructor
  · intro hfile
    refine ⟨?_, ?_⟩
    · simp [resRun, startPrepared, hes, hstr, hfile]
    · simp [resWorld, startPrepared, setGamedir, hes, hstr, hfile]
  · intro hfile
    refine ⟨?_, ?_⟩
    · simp [resRun, startPrepared, hes, hstr, hfile]
    · simp [resWorld, startPrepared, setGamedir, hes, hstr, hfile]

/-- A title whose boot command names one existing payload file. -/
def gGo : Game :=
  { path := "p", title := none, year := none,
    emulator_start := some "GO.EXE", dosbox_conf := none, url := none }

/-- A world whose payload directory holds exactly `GO.EXE`. -/
def wGo : World :=
  { fs := { cache := [], gamedir := some [("GO.EXE", "binary")] }, fetched := [] }

theorem claim_C7_witness :
    resRun (start fetch0 unq0 unzip0 gGo [] [] wGo true (fun d => d)) =
      some "GO.EXE" ∧
    resWorld (start fetch0 unq0 unzip0 gGo [] [] wGo true (fun d => d)) =
      some (setGamedir wGo (withConf gGo [("GO.EXE", "binary")])) :=
  (claim_C7_shortcut fetch0 unq0 unzip0 gGo [] [] wGo [("GO.EXE", "binary")]
      (fun d => d) "GO.EXE" rfl (by decide) rfl).1 (by decide)

/-! ## C1: interactive-session capture -/

/-- C1 counterexample: boot command `FOO.EXE`, interactive session
rewrites the command script to the empty string. The persisted metadata
document is indeed left unchanged, but the Title Record's in-memory
`boot_command` (`emulator_start`) does NOT remain unchanged: line 107
(`self.emulator_start = f.read()`) runs before the emptiness test, so
the field becomes `''` instead of staying `FOO.EXE`. -/
theorem claim_C1_cex :
    resGame (start fetch0 unq0 unzip0 gFoo [("emulator_start", "FOO.EXE")]
        [("emulator_start", "FOO.EXE")] w0 false
        (fun d => KV.set d "dosbox.bat" "")) =
      some { gFoo with emulator_start := some "" } ∧
    some ("" : String) ≠ gFoo.emulator_start ∧
    resIni (start fetch0 unq0 unzip0 gFoo [("emulator_start", "FOO.EXE")]
        [("emulator_start", "FOO.EXE")] w0 false
        (fun d => KV.set d "dosbox.bat" "")) =
      some [("emulator_start", "FOO.EXE")] := by
  refine ⟨by decide, by decide, by decide⟩

/-- C1 as amended: in an interactive session (`autorun=False`) on a
title with a set boot command, the command script's post-session
contents always replace the in-memory `emulator_start`; when they are
non-empty the record is persisted via `write_metadata` (the saved
document holds the new boot command); when the script was rewritten to
empty contents no save happens — the in-memory field is the empty
string but the persisted document and config section are unchanged. -/
theorem claim_C1_amended (fetch unquote : String → String)
    (unzip : String → List (String × String)) (g : Game) (cfg ini : KV)
    (w : World) (gd : KV) (session : KV → KV) (s : String)
    (hes : strTruthy g.emulator_start = true)
    (hgd : w.fs.gamedir = some gd)
    (hsess : ∀ d, KV.get (session d) "dosbox.bat" = some s) :
    resGame (start fetch unquote unzip g cfg ini w false session) =
      some { g with emulator_start := some s } ∧
    (s ≠ "" →
      resCfg (start fetch unquote unzip g cfg ini w false session) =
        some (writeMetadata { g with emulator_start := some s } cfg) ∧
      resIni (start fetch unquote unzip g cfg ini w false session) =
        some (writeMetadata { g with emulator_start := some s } cfg) ∧
      KV.get (writeMetadata { g with emulator_start := some s } cfg)
        "emulator_start" = some s) ∧
    (s = "" →
      resCfg (start fetch unquote unzip g cfg ini w false session) = some cfg ∧
      resIni (start fetch unquote unzip g cfg ini w false session) = some ini) := by
  rw [start_of_gamedir fetch unquote unzip g cfg ini w gd false session hgd]
  have hcap : ∀ d, captureStep g cfg ini (session d) =
      (if s != "" then
        ({ g with emulator_start := some s },
          writeMetadata { g with emulator_start := some s } cfg,
          writeMetadata { g with emulator_start := some s } cfg)
       else ({ g with emulator_start := some s }, cfg, ini)) := by
    intro d
    simp [captureStep, hsess d]
  by_cases hse : s = ""
  · subst hse
    have hsb : (("" : String) != "") = false := by decide
    refine ⟨?_, fun h => absurd rfl h, fun h2 => ⟨?_, ?_⟩⟩
    · simp [resGame, startPrepared, hes, hcap, hsb]
    · simp [resCfg, startPrepared, hes, hcap, hsb]
    · simp [resIni, startPrepared, hes, hcap, hsb]
  · have hsb : (s != "") = true := by
      simp [hse]
    refine ⟨?_, fun h2 => ⟨?_, ?_, ?_⟩, fun h => absurd h hse⟩
    · simp [resGame, startPrepared, hes, hcap, hsb]
    · simp [resCfg, startPrepared, hes, hcap, hsb]
    · simp [resIni, startPrepared, hes, hcap, hsb]
    · rw [writeMetadata_get_es]
      simp [strTruthy, hsb]

theorem claim_C1_witness :
    resGame (start fetch0 unq0 unzip0 gFoo [] [] w0 false
        (fun d => KV.set d "dosbox.bat" "FOO.EXE\nBAR.EXE\n")) =
      some { gFoo with emulator_start := some "FOO.EXE\nBAR.EXE\n" } ∧
    ("FOO.EXE\nBAR.EXE\n" ≠ "" →
      resCfg (start fetch0 unq0 unzip0 gFoo [] [] w0 false
          (fun d => KV.set d "dosbox.bat" "FOO.EXE\nBAR.EXE\n")) =
        some (writeMetadata { gFoo with
          emulator_start := some "FOO.EXE\nBAR.EXE\n" } []) ∧
      resIni (start fetch0 unq0 unzip0 gFoo [] [] w0 false
          (fun d => KV.set d "dosbox.bat" "FOO.EXE\nBAR.EXE\n")) =
        some (writeMetadata { gFoo with
          emulator_start := some "FOO.EXE\nBAR.EXE\n" } []) ∧
      KV.get (writeMetadata { gFoo with
          emulator_start := some "FOO.EXE\nBAR.EXE\n" } []) "emulator_start" =
        some "FOO.EXE\nBAR.EXE\n") ∧
    ("FOO.EXE\nBAR.EXE\n" = "" →
      resCfg (start fetch0 unq0 unzip0 gFoo [] [] w0 false
          (fun d => KV.set d "dosbox.bat" "FOO.EXE\nBAR.EXE\n")) = some [] ∧
      resIni (start fetch0 unq0 unzip0 gFoo [] [] w0 false
          (fun d => KV.set d "dosbox.bat" "FOO.EXE\nBAR.EXE\n")) = some []) :=
  claim_C1_amended fetch0 unq0 unzip0 gFoo [] [] w0 [] 
    (fun d => KV.set d "dosbox.bat" "FOO.EXE\nBAR.EXE\n") "FOO.EXE\nBAR.EXE\n"
    (by decide) rfl (fun d => KV.get_set_self d "dosbox.bat" "FOO.EXE\nBAR.EXE\n")

/-! ## C9: the placeholder command script holds a single newline -/

/-- C9: when `boot_command` is unset and no command script exists, the
placeholder script written by `start` contains exactly `"\n"` — not
empty content. Since autorun is forced off, the session waits; if the
user exits without editing the script, the read-back contents `"\n"`
are non-empty, so they become the Title Record's `emulator_start` and
are persisted into the metadata document by `write_metadata`. -/
theorem claim_C9_placeholder (fetch unquote : String → String)
    (unzip : String → List (String × String)) (g : Game) (cfg ini : KV)
    (w : World) (gd : KV) (autorun : Bool)
    (hes : strTruthy g.emulator_start = false)
    (hgd : w.fs.gamedir = some gd)
    (hbat : KV.get gd "dosbox.bat" = none) :
    resWorld (start fetch unquote unzip g cfg ini w autorun (fun d => d)) =
      some (setGamedir w (KV.set (withConf g gd) "dosbox.bat" "\n")) ∧
    resGame (start fetch unquote unzip g cfg ini w autorun (fun d => d)) =
      some { g with emulator_start := some "\n" } ∧
    resIni (start fetch unquote unzip g cfg ini w autorun (fun d => d)) =
      some (writeMetadata { g with emulator_start := some "\n" } cfg) ∧
    KV.get (writeMetadata { g with emulator_start := some "\n" } cfg)
      "emulator_start" = some "\n" := by
  have hbat1 : KV.get (withConf g gd) "dosbox.bat" = none := by
    unfold withConf
    by_cases hc : strTruthy g.dosbox_conf
    · rw [if_pos hc, KV.get_set_ne _ _ _ _ (by decide)]
      exact hbat
    · rw [if_neg hc]
      exact hbat
  rw [start_of_gamedir fetch unquote unzip g cfg ini w gd autorun (fun d => d) hgd]
  have hnl : (("\n" : String) != "") = true := by decide
  have hcap : captureStep g cfg ini (KV.set (withConf g gd) "dosbox.bat" "\n") =
      ({ g with emulator_start := some "\n" },
        writeMetadata { g with emulator_start := some "\n" } cfg,
        writeMetadata { g with emulator_start := some "\n" } cfg) := by
    simp [captureStep, KV.get_set_self, hnl]
  refine ⟨?_, ?_, ?_, ?_⟩
  · simp [resWorld, startPrepared, setGamedir, hes, hbat1]
  · simp [resGame, startPrepared, hes, hbat1, hcap]
  · simp [resIni, startPrepared, hes, hbat1, hcap]
  · rw [writeMetadata_get_es]
    simp [strTruthy, hnl]

theorem claim_C9_witness :
    resWorld (start fetch0 unq0 unzip0 gNone [] [] w0 true (fun d => d)) =
      some (setGamedir w0 (KV.set (withConf gNone []) "dosbox.bat" "\n")) ∧
    resGame (start fetch0 unq0 unzip0 gNone [] [] w0 true (fun d => d)) =
      some { gNone with emulator_start := some "\n" } ∧
    resIni (start fetch0 unq0 unzip0 gNone [] [] w0 true (fun d => d)) =
      some (writeMetadata { gNone with emulator_start := some "\n" } []) ∧
    KV.get (writeMetadata { gNone with emulator_start := some "\n" } [])
      "emulator_start" = some "\n" :=
  claim_C9_placeholder fetch0 unq0 unzip0 gNone [] [] w0 [] true
    (by decide) rfl rfl
